import Mathlib

/-!
Verification of the schema-driven document state engine of the
doc-appart-generation repository, centred on
`agent_recup_info/agent/json_manager.py` (class `JsonManager`),
`agent_recup_info/agent/tools.py` (`set_value_impl`),
`ai_bail_agent/utils/json_manager.py` (`JSONManager.set_field_value`) and
`ai_bail_agent2/agent/tools.py` (`set_value`).

The Python JSON values are embedded as the inductive `Json` below.  In-place
mutation through object references in the source is modelled by functional
rebuilding along the navigated path; the persisted session file is modelled as
the second component of each operation's result (equal to the input tree
whenever the source never reaches its `save_session` call).  Python floats are
carried as their source literal string: no claim in this development depends on
IEEE float arithmetic, and the one float-valued computation (`int((filled /
total) * 100)` in `get_progress`) is modelled in exact integer arithmetic.
-/

/-- Embedding of a Python JSON value (as produced by `json.load`).  Floats are
kept as the literal they were parsed from; their numeric semantics are never
needed by the properties proved here. -/
inductive Json where
  | null : Json
  | bool (b : Bool) : Json
  | int (n : Int) : Json
  | float (lit : String) : Json
  | str (s : String) : Json
  | arr (xs : List Json) : Json
  | obj (kvs : List (String × Json)) : Json

/-- Python `type(x).__name__` for the scalar values that can be reached by the
navigation error paths. -/
def typeName : Json → String
  | .null => "NoneType"
  | .bool _ => "bool"
  | .int _ => "int"
  | .float _ => "float"
  | .str _ => "str"
  | .arr _ => "list"
  | .obj _ => "dict"

/-- Lookup of a key in a Python dict, modelled on the ordered key/value list
(first occurrence; CPython dicts have unique keys). -/
def lookupKey : List (String × Json) → String → Option Json
  | [], _ => none
  | (k', v') :: r, k => if k' = k then some v' else lookupKey r k

/-- Python `key in dict`. -/
def hasKey (kvs : List (String × Json)) (k : String) : Bool :=
  (lookupKey kvs k).isSome

/-- Python `d[k] = v` on a dict: update in place when the key exists
(preserving its position), append otherwise. -/
def dictSet : List (String × Json) → String → Json → List (String × Json)
  | [], k, v => [(k, v)]
  | (k', v') :: r, k, v => if k' = k then (k, v) :: r else (k', v') :: dictSet r k v

/-- The check `"valeur" in obj and "requis" in obj` of `json_manager.py`,
deciding whether a mapping is a Field object. -/
def isField (kvs : List (String × Json)) : Bool :=
  hasKey kvs "valeur" && hasKey kvs "requis"

/-- Nonzero test for a float literal, used only for Python truthiness of a
float: the literal denotes zero iff every mantissa digit is `0` (a denormal
underflow such as `1e-400` is not modelled; no value of that shape is ever
constructed here). -/
def floatLitTruthy (lit : String) : Bool :=
  (lit.data.takeWhile (fun c => c ≠ 'e' && c ≠ 'E')).any
    (fun c => c.isDigit && c ≠ '0')

/-- Python truthiness (`if obj["requis"]:`). -/
def truthy : Json → Bool
  | .null => false
  | .bool b => b
  | .int n => n ≠ 0
  | .float lit => floatLitTruthy lit
  | .str s => s ≠ ""
  | .arr xs => !xs.isEmpty
  | .obj kvs => !kvs.isEmpty

/-- The emptiness test `obj["valeur"] in [None, ""]` used by `get_progress`,
`get_missing_fields` and `_format_item`: Python `==` equates no other JSON
value with `None` or with the empty string. -/
def isEmptyVal : Json → Bool
  | .null => true
  | .str s => s = ""
  | _ => false

/-- Python membership `obj["valeur"] in [None, "", []]` used by
`ai_bail_agent/utils/json_manager.py` (`get_completion_status`,
`get_missing_required_fields`): the empty list also counts as empty there. -/
def isEmptyValWithList : Json → Bool
  | .null => true
  | .str s => s = ""
  | .arr xs => xs.isEmpty
  | _ => false

/-- Emptiness predicate written from the spec's words ("a Field is empty iff
`value` is `null`, `\"\"`, or `[]`"), to be compared with the engine's
`isEmptyVal`. -/
def specIsEmpty : Json → Bool
  | .null => true
  | .str s => s = ""
  | .arr xs => xs.isEmpty
  | _ => false

mutual

/-- The nested `count_fields` closure of `JsonManager.get_progress`: returns
the pair `(total_fields, filled_fields)` accumulated over a subtree. -/
def countFields : Json → Nat × Nat
  | .obj kvs =>
      if isField kvs then
        if truthy ((lookupKey kvs "requis").getD .null) then
          (1, if isEmptyVal ((lookupKey kvs "valeur").getD .null) then 0 else 1)
        else (0, 0)
      else countFieldsObj kvs
  | .arr xs => countFieldsArr xs
  | _ => (0, 0)

/-- Accumulation of `count_fields` over the values of a non-Field mapping. -/
def countFieldsObj : List (String × Json) → Nat × Nat
  | [] => (0, 0)
  | (_, v) :: r =>
      let a := countFields v
      let b := countFieldsObj r
      (a.1 + b.1, a.2 + b.2)

/-- Accumulation of `count_fields` over the items of a list. -/
def countFieldsArr : List Json → Nat × Nat
  | [] => (0, 0)
  | x :: r =>
      let a := countFields x
      let b := countFieldsArr r
      (a.1 + b.1, a.2 + b.2)

end

/-- One per-category entry of the dict returned by `get_progress`. -/
structure ProgressEntry where
  percentage : String
  filled : Nat
  total : Nat
deriving DecidableEq, Repr

/-- The per-category computation of `get_progress`: the percentage
`int((filled_fields / total_fields) * 100)` is modelled in exact integer
arithmetic as `filled * 100 / total` (floor); CPython evaluates it through IEEE
doubles, whose rounding is not modelled. -/
def categoryEntry (content : Json) : ProgressEntry :=
  let c := countFields content
  if c.1 > 0 then
    ⟨toString (c.2 * 100 / c.1) ++ "%", c.2, c.1⟩
  else
    ⟨"N/A", 0, 0⟩

/-- `JsonManager.get_progress`: the loaded session is a dict (category →
content); one entry is produced per top-level category. -/
def getProgress (data : List (String × Json)) : List (String × ProgressEntry) :=
  data.map (fun kv => (kv.1, categoryEntry kv.2))

mutual

/-- The nested `find_missing` closure of `JsonManager.get_missing_fields`:
collects (in traversal order) the accumulated dotted paths of the required,
empty Field objects of a subtree. -/
def findMissing : Json → String → List String
  | .obj kvs, path =>
      if isField kvs then
        if truthy ((lookupKey kvs "requis").getD .null) &&
           isEmptyVal ((lookupKey kvs "valeur").getD .null) then [path] else []
      else findMissingObj kvs path
  | .arr xs, path => findMissingArr xs path 0
  | _, _ => []

/-- Traversal of `find_missing` over a non-Field mapping:
`new_path = f"{path}.{key}" if path else key`. -/
def findMissingObj : List (String × Json) → String → List String
  | [], _ => []
  | (k, v) :: r, path =>
      findMissing v (if path = "" then k else path ++ "." ++ k) ++
        findMissingObj r path

/-- Traversal of `find_missing` over a list: `new_path = f"{path}.{i}"`
unconditionally. -/
def findMissingArr : List Json → String → Nat → List String
  | [], _, _ => []
  | x :: r, path, i =>
      findMissing x (path ++ "." ++ toString i) ++ findMissingArr r path (i + 1)

end

/-- Single-quote character, used when rendering the engine's error strings. -/
def apos : String := "\x27"

/-- The `f"Error: {...}"` rendering shared by every error return of the
engine. -/
def errMsg (m : String) : String := "Error: " ++ m

/-- `JsonManager.get_missing_fields`. -/
def getMissingFields (data : List (String × Json)) (category : String) : List String :=
  match lookupKey data category with
  | none => ["Category " ++ apos ++ category ++ apos ++ " not found"]
  | some content => findMissing content ""

/-- One step of a parsed path, as produced by `JsonManager._parse_path`: either
a string key or a non-negative integer list index (`part.isdigit()` only
accepts digits, so the parser never yields a negative index). -/
inductive Step where
  | key (s : String)
  | idx (n : Nat)
deriving DecidableEq, Repr

/-- Scanner implementing `re.sub(r'\[(\d+)\]', r'.\1', path)` as the regex
engine applies it, left to right over non-overlapping matches.  The first
argument is the scanner state: `none` outside a candidate match, `some ds`
after an opening bracket followed by the (reversed) digits `ds`.  A candidate
that fails (a non-digit before the closing bracket, or the end of input) is
emitted literally; since a match can only start at an opening bracket and the
pending digits contain none, restarting right after the emitted bracket is
exactly the regex engine's behaviour. -/
def normAux : Option (List Char) → List Char → List Char
  | none, [] => []
  | some ds, [] => '[' :: ds.reverse
  | none, c :: cs =>
      if c = '[' then normAux (some []) cs
      else c :: normAux none cs
  | some ds, c :: cs =>
      if c.isDigit then normAux (some (c :: ds)) cs
      else if c = ']' && !ds.isEmpty then '.' :: ds.reverse ++ normAux none cs
      else if c = '[' then '[' :: ds.reverse ++ normAux (some []) cs
      else '[' :: ds.reverse ++ c :: normAux none cs

/-- The bracket-to-dot normalization of `JsonManager._parse_path`:
`re.sub(r'\[(\d+)\]', r'.\1', path)`. -/
def normBrack (cs : List Char) : List Char :=
  normAux none cs

/-- Python `str.split('.')` (with a non-empty separator): the empty string
splits to one empty segment, and consecutive dots produce empty segments. -/
def splitOnDot : List Char → List (List Char)
  | [] => [[]]
  | c :: cs =>
      if c = '.' then [] :: splitOnDot cs
      else
        match splitOnDot cs with
        | s :: ss => (c :: s) :: ss
        | [] => [[c]]

/-- Python `str.isdigit()` on a split segment: non-empty and all digits
(restricted to ASCII digits; exotic Unicode digit characters are not
modelled). -/
def segIsDigit (cs : List Char) : Bool :=
  !cs.isEmpty && cs.all Char.isDigit

/-- Decimal value of a digit run (`int(part)`). -/
def digitsToNat (cs : List Char) : Nat :=
  cs.foldl (fun acc c => 10 * acc + (c.toNat - 48)) 0

/-- Conversion of one split segment into a path step. -/
def segToStep (cs : List Char) : Step :=
  if segIsDigit cs then .idx (digitsToNat cs) else .key (String.mk cs)

/-- `JsonManager._parse_path`. -/
def parsePath (path : String) : List Step :=
  (splitOnDot (normBrack path.data)).map segToStep

/-- Exception kinds raised by `JsonManager._navigate_to_parent` and the final
update step of `update_value` (Python `ValueError`, `KeyError`, `IndexError`,
`TypeError`); the carried string is the exception's argument. -/
inductive PyErr where
  | valueErr (m : String)
  | keyErr (m : String)
  | indexErr (m : String)
  | typeErr (m : String)
deriving DecidableEq, Repr

/-- Rendering of a caught exception as `f"Error: {str(e)}"`: for `KeyError`,
CPython's `str(e)` is the `repr` of the argument, which wraps the message in
double quotes because these messages contain single quotes and no double
quote. -/
def renderPyErr : PyErr → String
  | .valueErr m => errMsg m
  | .keyErr m => errMsg ("\"" ++ m ++ "\"")
  | .indexErr m => errMsg m
  | .typeErr m => errMsg m

/-- `JsonManager._navigate_to_parent`, applied to `keys[:-1]`: purely
traverses, raising on a bad step; the bound check `key < 0` of the source is
vacuous here because `_parse_path` only produces non-negative indices. -/
def navParentExc : Json → List Step → Except PyErr Json
  | current, [] => .ok current
  | current, k :: ks =>
    match current with
    | .arr xs =>
      match k with
      | .key s =>
          .error (.valueErr ("Expected integer index for list, got " ++
            apos ++ s ++ apos))
      | .idx n =>
          if h : n < xs.length then navParentExc xs[n] ks
          else .error (.indexErr ("List index " ++ toString n ++
            " out of range (list has " ++ toString xs.length ++ " items)"))
    | .obj kvs =>
      match k with
      | .key s =>
        match lookupKey kvs s with
        | some v => navParentExc v ks
        | none => .error (.keyErr ("Key " ++ apos ++ s ++ apos ++
            " not found in object"))
      | .idx n => .error (.keyErr ("Key " ++ apos ++ toString n ++ apos ++
          " not found in object"))
    | other => .error (.typeErr ("Cannot navigate through " ++ typeName other))

/-- Functional rebuilding of the tree after the source mutates, through a
reference, the node reached by the navigated steps: replaces the subtree at
the given (already validated) position.  On a position the navigation could
not have reached, the tree is returned unchanged; the write operations only
call this after a successful navigation. -/
def modifyAt : Json → List Step → Json → Json
  | _, [], newNode => newNode
  | .arr xs, .idx n :: ks, newNode =>
      .arr (xs.set n (modifyAt (xs.getD n .null) ks newNode))
  | .obj kvs, .key s :: ks, newNode =>
      .obj (dictSet kvs s (modifyAt ((lookupKey kvs s).getD .null) ks newNode))
  | j, _, _ => j

/-- Result of the final-key handling of `update_value`: an error string
returned directly, an exception to be caught by the surrounding handler, or
the parent node with the update applied. -/
inductive UpdRes where
  | errRet (m : String)
  | raised (e : PyErr)
  | ok (newParent : Json)

/-- Python substring test `needle in hay` restricted to the start of `hay`. -/
def listStarts : List Char → List Char → Bool
  | [], _ => true
  | _, [] => false
  | a :: as, b :: bs => a = b && listStarts as bs

/-- Python substring test `needle in hay` for strings. -/
def listHasInfix : List Char → List Char → Bool
  | ns, [] => ns.isEmpty
  | ns, h :: hs => listStarts ns (h :: hs) || listHasInfix ns hs

/-- The final-key handling of `JsonManager.update_value` after
`_navigate_to_parent` returned `(parent, final_key)`.  When the parent is
neither a list nor a mapping, the source evaluates `final_key not in parent`,
which raises `TypeError` for non-iterable parents and does a substring test
for string parents (where a hit then raises on the subsequent string
indexing); the exact interpreter wording of those `TypeError` messages varies
across CPython versions and only their kind matters here. -/
def finalUpdate (parent : Json) (fin : Step) (value : Json) : UpdRes :=
  match parent with
  | .arr xs =>
    match fin with
    | .key s => .errRet (errMsg ("Expected integer index for list, got " ++
        apos ++ s ++ apos))
    | .idx n =>
      if h : n < xs.length then
        match xs[n] with
        | .obj t =>
            if hasKey t "valeur" then
              .ok (.arr (xs.set n (.obj (dictSet t "valeur" value))))
            else .ok (.arr (xs.set n value))
        | _ => .ok (.arr (xs.set n value))
      else .errRet (errMsg ("List index " ++ toString n ++ " out of range"))
  | .obj kvs =>
    match fin with
    | .idx n => .errRet (errMsg ("Key " ++ apos ++ toString n ++ apos ++
        " not found"))
    | .key s =>
      match lookupKey kvs s with
      | none => .errRet (errMsg ("Key " ++ apos ++ s ++ apos ++ " not found"))
      | some (.obj t) =>
          if hasKey t "valeur" then
            .ok (.obj (dictSet kvs s (.obj (dictSet t "valeur" value))))
          else .ok (.obj (dictSet kvs s value))
      | some _ => .ok (.obj (dictSet kvs s value))
  | .str hay =>
    match fin with
    | .key s =>
        if listHasInfix s.data hay.data then
          .raised (.typeErr "string indices must be integers")
        else .errRet (errMsg ("Key " ++ apos ++ s ++ apos ++ " not found"))
    | .idx _ => .raised (.typeErr
        ("argument of type " ++ apos ++ "int" ++ apos ++ " is not iterable"))
  | other => .raised (.typeErr
      ("argument of type " ++ apos ++ typeName other ++ apos ++
        " is not iterable"))

/-- `JsonManager.update_value` as a pure function: the returned pair is the
message handed back to the caller and the persisted session tree
(`save_session` runs only on the success path, so every error leaves the
persisted tree untouched). -/
def updateValue (data : Json) (path : String) (value : Json) : String × Json :=
  let keys := parsePath path
  match navParentExc data keys.dropLast with
  | .error e => (renderPyErr e, data)
  | .ok parent =>
    match finalUpdate parent (keys.getLastD (.key "")) value with
    | .errRet m => (m, data)
    | .raised e => (renderPyErr e, data)
    | .ok newParent => ("Done", modifyAt data keys.dropLast newParent)

/-- The navigation loop shared by `add_list_item`, `remove_list_item` and
`get_list_length`: walks every parsed key, returning an error string instead
of raising; the list access `current[key]` there has no bound check, so an
out-of-range index raises `IndexError("list index out of range")`, caught by
the surrounding handler. -/
def navigateAll : Json → List Step → Except String Json
  | current, [] => .ok current
  | current, k :: ks =>
    match current with
    | .arr xs =>
      match k with
      | .key s => .error (errMsg ("Expected integer index for list, got " ++
          apos ++ s ++ apos))
      | .idx n =>
          if h : n < xs.length then navigateAll xs[n] ks
          else .error (errMsg "list index out of range")
    | .obj kvs =>
      match k with
      | .key s =>
        match lookupKey kvs s with
        | some v => navigateAll v ks
        | none => .error (errMsg ("Key " ++ apos ++ s ++ apos ++ " not found"))
      | .idx n => .error (errMsg ("Key " ++ apos ++ toString n ++ apos ++
          " not found"))
    | other => .error (errMsg ("Cannot navigate through " ++ typeName other))

/-- The empty sentinel chosen by `_create_empty_copy` for a Field object:
`None` when `obj.get("type")` equals `"booleen"` or `"nombre"`, the empty
string otherwise. -/
def emptySentinel (ty : Option Json) : Json :=
  match ty with
  | some (.str t) => if t = "booleen" ∨ t = "nombre" then .null else .str ""
  | _ => .str ""

mutual

/-- `JsonManager._create_empty_copy`: deep copy with every Field object's
`valeur` reset to its type-appropriate empty sentinel (the source's shallow
`obj.copy()` on a Field object is indistinguishable from a copy in this value
model). -/
def createEmptyCopy : Json → Json
  | .obj kvs =>
      if isField kvs then
        .obj (dictSet kvs "valeur" (emptySentinel (lookupKey kvs "type")))
      else .obj (cecObj kvs)
  | .arr xs => .arr (cecArr xs)
  | j => j

/-- `_create_empty_copy` over the entries of a non-Field mapping. -/
def cecObj : List (String × Json) → List (String × Json)
  | [] => []
  | (k, v) :: r => (k, createEmptyCopy v) :: cecObj r

/-- `_create_empty_copy` over the items of a list. -/
def cecArr : List Json → List Json
  | [] => []
  | x :: r => createEmptyCopy x :: cecArr r

end

/-- `JsonManager.add_list_item` as a pure function (message, persisted tree):
with an explicit template the template is appended verbatim; otherwise the
first item of a non-empty list is empty-copied; an empty list without a
template is an error; the session is saved only on success. -/
def addListItem (data : Json) (listPath : String) (itemTemplate : Option Json) :
    String × Json :=
  let keys := parsePath listPath
  match navigateAll data keys with
  | .error m => (m, data)
  | .ok current =>
    match current with
    | .arr xs =>
      match itemTemplate with
      | some t =>
          ("Done. New item added at index " ++ toString ((xs ++ [t]).length - 1),
            modifyAt data keys (.arr (xs ++ [t])))
      | none =>
        match xs with
        | [] => (errMsg "Cannot add item - list is empty and no template provided",
            data)
        | x :: _ =>
            ("Done. New item added at index " ++
                toString ((xs ++ [createEmptyCopy x]).length - 1),
              modifyAt data keys (.arr (xs ++ [createEmptyCopy x])))
    | _ => (errMsg ("Path " ++ apos ++ listPath ++ apos ++
        " does not point to a list"), data)

/-- `JsonManager.remove_list_item` as a pure function (message, persisted
tree): bound check first, then the last-item protection, then `list.pop`;
the session is saved only on success. -/
def removeListItem (data : Json) (listPath : String) (index : Int) :
    String × Json :=
  let keys := parsePath listPath
  match navigateAll data keys with
  | .error m => (m, data)
  | .ok current =>
    match current with
    | .arr xs =>
        if index < 0 ∨ index ≥ xs.length then
          (errMsg ("Index " ++ toString index ++ " out of range (list has " ++
            toString xs.length ++ " items)"), data)
        else if xs.length ≤ 1 then
          (errMsg "Cannot remove the last item from the list", data)
        else
          ("Done. Item at index " ++ toString index ++ " removed",
            modifyAt data keys (.arr (xs.eraseIdx index.toNat)))
    | _ => (errMsg ("Path " ++ apos ++ listPath ++ apos ++
        " does not point to a list"), data)

/-- ASCII lower-casing of one character, modelling Python `str.lower()` on the
strings the tools receive (non-ASCII case mappings are not modelled). -/
def charLower (c : Char) : Char :=
  if 'A' ≤ c ∧ c ≤ 'Z' then Char.ofNat (c.toNat + 32) else c

/-- Python `value.lower()`. -/
def pyLower (s : String) : String :=
  String.mk (s.data.map charLower)

/-- Whitespace accepted (and stripped) by Python `int()` / `float()` around a
numeric literal. -/
def pyIsSpace (c : Char) : Bool :=
  c = ' ' || c = '\t' || c = '\n' || c = '\r' || c = '\x0b' || c = '\x0c'

/-- Strip leading and trailing whitespace from a character list. -/
def stripWs (cs : List Char) : List Char :=
  ((cs.dropWhile pyIsSpace).reverse.dropWhile pyIsSpace).reverse

/-- Drop one optional leading sign. -/
def dropSign : List Char → List Char
  | '+' :: r => r
  | '-' :: r => r
  | cs => cs

/-- Sign of an optional leading sign character. -/
def signOf : List Char → Int
  | '-' :: _ => -1
  | _ => 1

/-- Python `int(s)` on a string: optional surrounding whitespace, an optional
sign, then a non-empty digit run; returns `none` where CPython raises
`ValueError` (underscored literals such as `1_0` and non-ASCII digits are
accepted by CPython but not modelled — no input of that shape is used in any
concrete statement below). -/
def pyIntOfString (s : String) : Option Int :=
  let cs := stripWs s.data
  let body := dropSign cs
  if segIsDigit body then some (signOf cs * (digitsToNat body : Int))
  else none

/-- Exponent part of a Python float literal: empty, or `e`/`E` with an
optional sign and a non-empty digit run. -/
def floatExpOk : List Char → Bool
  | [] => true
  | c :: rest =>
      (c = 'e' || c = 'E') && segIsDigit (dropSign rest)

/-- Mantissa-with-exponent body of a Python float literal. -/
def floatBodyOk (cs : List Char) : Bool :=
  let d1 := cs.takeWhile Char.isDigit
  let r1 := cs.dropWhile Char.isDigit
  match r1 with
  | '.' :: r2 =>
      let d2 := r2.takeWhile Char.isDigit
      let r3 := r2.dropWhile Char.isDigit
      (!d1.isEmpty || !d2.isEmpty) && floatExpOk r3
  | _ => !d1.isEmpty && floatExpOk r1

/-- Acceptance test of Python `float(s)`: optional surrounding whitespace and
sign around a decimal literal.  The `inf`/`infinity`/`nan` spellings CPython
also accepts are not modelled: in `set_value` the float branch only runs on
strings containing a dot, which those spellings never do. -/
def pyFloatParses (s : String) : Bool :=
  floatBodyOk (dropSign (stripWs s.data))

/-- The value-coercion block of `set_value_impl`
(`agent_recup_info/agent/tools.py`) and `set_value`
(`ai_bail_agent2/agent/tools.py`), applied to a string input: `"true"` /
`"false"` case-insensitively become booleans; otherwise a string containing a
dot is tried as `float`, one without as `int`, and on `ValueError` the string
is kept.  A successfully parsed float is carried as its literal. -/
def parseValue (s : String) : Json :=
  if pyLower s = "true" then .bool true
  else if pyLower s = "false" then .bool false
  else if s.data.contains '.' then
    if pyFloatParses s then .float s else .str s
  else
    match pyIntOfString s with
    | some n => .int n
    | none => .str s

/-- Coercion applied by `set_value_impl` to an update's value: only string
values enter the parsing block (`isinstance(value, str)`). -/
def coerceVal : Json → Json
  | .str s => parseValue s
  | v => v

/-- One entry of the `updates` list handed to `set_value_impl`: `path` is
`update.get("path")` (absent modelled as `none`), and `value` is
`update.get("value")` (an absent value and an explicit JSON `null` are both
`None` to the source, modelled here as `Json.null`). -/
structure Upd where
  path : Option String
  value : Json

/-- The test `if not path or value is None` of `set_value_impl`. -/
def invalidUpd (u : Upd) : Bool :=
  (match u.path with
   | none => true
   | some p => p = "") ||
  (match u.value with
   | .null => true
   | _ => false)

/-- Rendering of an update dict inside the `Invalid update format` message
(`f"... for {update}"`); braces and quotes follow Python's dict repr for the
two-key dict, written with character escapes. -/
def reprUpd (u : Upd) : String :=
  "\x7b" ++ apos ++ "path" ++ apos ++ ": " ++
    (match u.path with
     | none => "None"
     | some p => apos ++ p ++ apos) ++
    ", " ++ apos ++ "value" ++ apos ++ ": ..." ++ "\x7d"

/-- One iteration of the update loop of `set_value_impl`: an invalid entry is
reported without touching the engine; a valid one is coerced and handed to
`update_value`, and its outcome line is `f"Update '{path}': {result}"`. -/
def svStep (data : Json) (u : Upd) : String × Json :=
  if invalidUpd u then
    ("Error: Invalid update format for " ++ reprUpd u, data)
  else
    match u.path with
    | some p =>
        let r := updateValue data p (coerceVal u.value)
        ("Update " ++ apos ++ p ++ apos ++ ": " ++ r.1, r.2)
    | none => ("Error: Invalid update format for " ++ reprUpd u, data)

/-- The update loop of `set_value_impl`: updates are applied strictly in input
order, each producing one result line, the tree threading through. -/
def setValueGo : Json → List Upd → List String × Json
  | data, [] => ([], data)
  | data, u :: us =>
      let r := svStep data u
      let rest := setValueGo r.2 us
      (r.1 :: rest.1, rest.2)

/-- `set_value_impl`: the result lines joined with newlines, next to the final
persisted tree. -/
def setValueImpl (data : Json) (updates : List Upd) : String × Json :=
  let r := setValueGo data updates
  (String.intercalate "\n" r.1, r.2)

/-- Python `path.split('.')` (no bracket normalization, no integer
conversion), as used by `JSONManager.set_field_value` in
`ai_bail_agent/utils/json_manager.py`. -/
def splitDots (s : String) : List String :=
  (splitOnDot s.data).map String.mk

/-- The descend-and-write body of `JSONManager.set_field_value`
(`ai_bail_agent/utils/json_manager.py`): intermediate missing keys are
implicitly created as empty dicts, and the final key is written whether or not
it exists; every attempt to step through a non-dict raises `TypeError` (list
and string subscripting/assignment with a string key), caught by the handler
which returns `False` — modelled as `none`.  The source mutates intermediate
dicts in memory even when a later step fails, but persists only on success;
the model tracks the persisted state. -/
def sfvGo : Json → List String → Json → Option Json
  | .obj kvs, [last], v =>
    match lookupKey kvs last with
    | some (.obj t) =>
        if hasKey t "valeur" then
          some (.obj (dictSet kvs last (.obj (dictSet t "valeur" v))))
        else some (.obj (dictSet kvs last v))
    | _ => some (.obj (dictSet kvs last v))
  | .obj kvs, k :: rest, v =>
    (sfvGo ((lookupKey kvs k).getD (.obj [])) rest v).map
      (fun sub => .obj (dictSet kvs k sub))
  | _, _, _ => none

/-- The `_metadata` touch of `save_session_json`: when the tree has a
`_metadata` dict, its `last_modified` entry is set to the current wall-clock
timestamp, passed in here as the `now` argument since real time is outside the
model; a non-dict `_metadata` raises before the file is written. -/
def saveTouch (now : String) : Json → Option Json
  | .obj kvs =>
    match lookupKey kvs "_metadata" with
    | some (.obj m) =>
        some (.obj (dictSet kvs "_metadata"
          (.obj (dictSet m "last_modified" (.str now)))))
    | some _ => none
    | none => some (.obj kvs)
  | j => some j

/-- `JSONManager.set_field_value` as a pure function: returns the boolean the
source returns and the persisted tree (unchanged whenever the source returns
`False`, since no save happened). -/
def setFieldValue (now : String) (data : Json) (fieldPath : String)
    (value : Json) : Bool × Json :=
  match sfvGo data (splitDots fieldPath) value with
  | none => (false, data)
  | some d =>
    match saveTouch now d with
    | none => (false, data)
    | some d' => (true, d')

/-- A Field object with the three schema entries, in template order. -/
def mkField (v r t : Json) : Json :=
  .obj [("valeur", v), ("requis", r), ("type", t)]

/-- Contribution of a single Field object to `get_progress`: it is counted in
`total` exactly when its `requis` entry is truthy, and in `filled` exactly
when it is moreover not `None` and not the empty string — the `type` entry is
never consulted. -/
theorem countFields_mkField (v r t : Json) :
    countFields (mkField v r t) =
      if truthy r then (1, if isEmptyVal v then 0 else 1) else (0, 0) := by
  simp [mkField, countFields, isField, hasKey, lookupKey]

/-- Contribution of a single Field object to `get_missing_fields`: reported
exactly when `requis` is truthy and the value is `None` or the empty string —
the `type` entry is never consulted. -/
theorem findMissing_mkField (v r t : Json) (p : String) :
    findMissing (mkField v r t) p =
      if truthy r && isEmptyVal v then [p] else [] := by
  simp [mkField, findMissing, isField, hasKey, lookupKey]

mutual

/-- In every subtree, `get_progress` counts at most as many filled fields as
total fields. -/
theorem filledLeTotal : ∀ j : Json, (countFields j).2 ≤ (countFields j).1
  | .null => Nat.le_refl _
  | .bool _ => Nat.le_refl _
  | .int _ => Nat.le_refl _
  | .float _ => Nat.le_refl _
  | .str _ => Nat.le_refl _
  | .obj kvs => by
      simp only [countFields]
      by_cases h : isField kvs
      · simp only [h, if_true]
        by_cases hr : truthy ((lookupKey kvs "requis").getD .null)
        · simp only [hr, if_true]
          split <;> simp
        · simp [hr]
      · simp only [h, if_false]
        exact filledLeTotalObj kvs
  | .arr xs => by
      simp only [countFields]
      exact filledLeTotalArr xs

/-- Mutual part of `filledLeTotal` for mapping entries. -/
theorem filledLeTotalObj :
    ∀ kvs : List (String × Json), (countFieldsObj kvs).2 ≤ (countFieldsObj kvs).1
  | [] => Nat.le_refl _
  | (_, v) :: r => by
      simp only [countFieldsObj]
      exact Nat.add_le_add (filledLeTotal v) (filledLeTotalObj r)

/-- Mutual part of `filledLeTotal` for list items. -/
theorem filledLeTotalArr :
    ∀ xs : List Json, (countFieldsArr xs).2 ≤ (countFieldsArr xs).1
  | [] => Nat.le_refl _
  | x :: r => by
      simp only [countFieldsArr]
      exact Nat.add_le_add (filledLeTotal x) (filledLeTotalArr r)

end

/-- C1 (amended).  The engine does not special-case the fixed type:
`get_progress` counts a Field object in the per-category `total` exactly when
its `requis` entry is truthy, and `get_missing_fields` reports it exactly when
it is required and empty — in both cases entirely independently of the Field's
`type` entry, so a required Field with `type = "fixe"` is counted like any
other and, when empty, reported as missing. -/
theorem fieldTypeNeverConsulted (v r t₁ t₂ : Json) (p : String) :
    countFields (mkField v r t₁) = countFields (mkField v r t₂) ∧
    findMissing (mkField v r t₁) p = findMissing (mkField v r t₂) p ∧
    (countFields (mkField v r (.str "fixe"))).1 =
      (if truthy r then 1 else 0) ∧
    findMissing (mkField v r (.str "fixe")) p =
      (if truthy r && isEmptyVal v then [p] else []) := by
  refine ⟨?_, ?_, ?_, ?_⟩
  · rw [countFields_mkField, countFields_mkField]
  · rw [findMissing_mkField, findMissing_mkField]
  · rw [countFields_mkField]
    by_cases h : truthy r <;> simp [h]
  · rw [findMissing_mkField]

/-- Session tree exhibiting the failure of C1: a single required Field with
`type = "fixe"` and an empty value. -/
def c1Session : List (String × Json) :=
  [("cat", .obj [("f", mkField (.str "") (.bool true) (.str "fixe"))])]

/-- C1 counterexample.  On `c1Session`, whose only Field has the fixed type,
the claim predicts `total = 0` and no missing-field report; the code counts
the Field (`total = 1`) and reports its path `"f"` as missing. -/
theorem fixedFieldCountedAndReported :
    getProgress c1Session = [("cat", ⟨"0%", 0, 1⟩)] ∧
    getMissingFields c1Session "cat" = ["f"] :=
  ⟨rfl, rfl⟩

/-- C2 (amended).  A required Field is counted as filled exactly when its
value is neither `None` nor the empty string — an empty list therefore counts
as FILLED, against the spec's emptiness predicate — and the reported
percentage is `floor(filled / total * 100)` (in exact arithmetic; the source
computes it through IEEE doubles) when `total > 0`, the `"N/A"` sentinel when
`total = 0`; `filled` never exceeds `total`. -/
theorem progressPercentageAndFilled (v r t content : Json) :
    (countFields (mkField v r t) =
      if truthy r then (1, if isEmptyVal v then 0 else 1) else (0, 0)) ∧
    (countFields content).2 ≤ (countFields content).1 ∧
    (0 < (countFields content).1 →
      categoryEntry content =
        ⟨toString ((countFields content).2 * 100 / (countFields content).1) ++ "%",
          (countFields content).2, (countFields content).1⟩) ∧
    ((countFields content).1 = 0 → categoryEntry content = ⟨"N/A", 0, 0⟩) := by
  refine ⟨countFields_mkField v r t, filledLeTotal content, ?_, ?_⟩
  · intro h
    simp [categoryEntry, h]
  · intro h
    simp [categoryEntry, h]

/-- Witness for `progressPercentageAndFilled` at a concrete session: a
two-field category with one filled required field yields `total = 2`,
`filled = 1` and percentage `floor(1/2*100) = 50`. -/
theorem progressPercentageAndFilledWitness :
    countFields (mkField (.str "x") (.bool true) (.str "texte")) = (1, 1) ∧
    categoryEntry (.obj [("a", mkField (.str "x") (.bool true) (.str "texte")),
        ("b", mkField .null (.bool true) (.str "texte"))]) = ⟨"50%", 1, 2⟩ := by
  have h := progressPercentageAndFilled (.str "x") (.bool true) (.str "texte")
    (.obj [("a", mkField (.str "x") (.bool true) (.str "texte")),
        ("b", mkField .null (.bool true) (.str "texte"))])
  refine ⟨?_, ?_⟩
  · rw [h.1]
    rfl
  · have h3 := h.2.2.1 (by decide)
    rw [h3]
    rfl

/-- Session tree exhibiting the failure of C2: a single required Field whose
value is the empty list. -/
def c2Session : List (String × Json) :=
  [("cat", .obj [("f", mkField (.arr []) (.bool true) (.str "liste"))])]

/-- C2 counterexample.  The spec's emptiness predicate calls the empty list
empty, so the claim predicts `filled = 0` for `c2Session`; the code's
membership test `value not in [None, ""]` counts the empty-list value as
filled, reporting `filled = 1` and `100%`. -/
theorem emptyListValueCountsAsFilled :
    getProgress c2Session = [("cat", ⟨"100%", 1, 1⟩)] ∧
    specIsEmpty (.arr []) = true :=
  ⟨rfl, rfl⟩

/-- Writing a key into a dict makes that key hold the written value. -/
theorem lookupKey_dictSet_same (kvs : List (String × Json)) (k : String) (v : Json) :
    lookupKey (dictSet kvs k v) k = some v := by
  induction kvs with
  | nil => simp [dictSet, lookupKey]
  | cons hd tl ih =>
      obtain ⟨k', v'⟩ := hd
      by_cases h : k' = k
      · simp [dictSet, lookupKey, h]
      · simp [dictSet, lookupKey, h, ih]

/-- Writing a key into a dict leaves every other key's value unchanged. -/
theorem lookupKey_dictSet_other (kvs : List (String × Json)) (k k' : String)
    (v : Json) (h : k' ≠ k) :
    lookupKey (dictSet kvs k v) k' = lookupKey kvs k' := by
  induction kvs with
  | nil =>
      simp only [dictSet, lookupKey]
      rw [if_neg (fun hh => h hh.symm)]
  | cons hd tl ih =>
      obtain ⟨k₀, v₀⟩ := hd
      by_cases h0 : k₀ = k
      · subst h0
        simp only [dictSet, if_pos rfl, lookupKey]
        rw [if_neg (fun hh => h hh.symm), if_neg (fun hh => h hh.symm)]
      · simp only [dictSet, if_neg h0, lookupKey]
        by_cases h1 : k₀ = k'
        · rw [if_pos h1, if_pos h1]
        · rw [if_neg h1, if_neg h1, ih]

/-- The test `isinstance(target, dict) and "valeur" in target` deciding
whether the addressed entry is updated in place or replaced outright. -/
def isFieldShaped : Json → Bool
  | .obj t => hasKey t "valeur"
  | _ => false

/-- C3 (amended).  For `JsonManager.update_value`, when the resolved parent is
a mapping and the final step a key: a missing key yields the `KeyNotFound`
error and leaves the persisted tree — hence the mapping — untouched (no
implicit create); an existing key holding a Field-shaped object has only that
object's `valeur` updated in place; any other existing entry is replaced
outright.  (`JSONManager.set_field_value` of `ai_bail_agent`, also cited by
the claim, instead auto-creates missing keys — see the counterexample.) -/
theorem mappingParentWriteBehaviour (data value : Json) (path : String)
    (kvs t : List (String × Json)) (s : String)
    (hnav : navParentExc data (parsePath path).dropLast = .ok (.obj kvs))
    (hfin : (parsePath path).getLastD (.key "") = .key s) :
    (lookupKey kvs s = none →
      updateValue data path value =
        (errMsg ("Key " ++ apos ++ s ++ apos ++ " not found"), data)) ∧
    (lookupKey kvs s = some (.obj t) → hasKey t "valeur" = true →
      updateValue data path value =
        ("Done", modifyAt data (parsePath path).dropLast
          (.obj (dictSet kvs s (.obj (dictSet t "valeur" value)))))) ∧
    (∀ j, lookupKey kvs s = some j → isFieldShaped j = false →
      updateValue data path value =
        ("Done", modifyAt data (parsePath path).dropLast
          (.obj (dictSet kvs s value)))) := by
  refine ⟨?_, ?_, ?_⟩
  · intro h1
    simp only [updateValue, hnav, hfin, finalUpdate, h1]
  · intro h1 h2
    simp only [updateValue, hnav, hfin, finalUpdate, h1, h2, if_true]
  · intro j h1 h2
    cases j with
    | obj t' =>
        simp only [isFieldShaped] at h2
        simp only [updateValue, hnav, hfin, finalUpdate, h1, h2, if_false,
          Bool.false_eq_true]
    | null => simp only [updateValue, hnav, hfin, finalUpdate, h1]
    | bool b => simp only [updateValue, hnav, hfin, finalUpdate, h1]
    | int n => simp only [updateValue, hnav, hfin, finalUpdate, h1]
    | float lit => simp only [updateValue, hnav, hfin, finalUpdate, h1]
    | str s' => simp only [updateValue, hnav, hfin, finalUpdate, h1]
    | arr xs => simp only [updateValue, hnav, hfin, finalUpdate, h1]

/-- Concrete one-category session used by the `mappingParentWriteBehaviour`
witness. -/
def c3wTree : Json :=
  .obj [("cat", .obj [("f", mkField (.str "") (.bool true) (.str "texte")),
    ("plain", .int 7)])]

/-- Witness for `mappingParentWriteBehaviour`: on a one-category session,
writing a missing key errors and changes nothing, writing a Field-shaped key
updates its `valeur` in place, and writing a plain entry replaces it. -/
theorem mappingParentWriteBehaviourWitness :
    updateValue c3wTree "cat.nope" (.str "x") =
      (errMsg ("Key " ++ apos ++ "nope" ++ apos ++ " not found"), c3wTree) ∧
    updateValue c3wTree "cat.f" (.str "x") =
      ("Done", .obj [("cat", .obj [("f", mkField (.str "x") (.bool true)
        (.str "texte")), ("plain", .int 7)])]) ∧
    updateValue c3wTree "cat.plain" (.str "x") =
      ("Done", .obj [("cat", .obj [("f", mkField (.str "") (.bool true)
        (.str "texte")), ("plain", .str "x")])]) := by
  refine ⟨?_, ?_, ?_⟩
  · exact (mappingParentWriteBehaviour c3wTree (.str "x") "cat.nope"
      [("f", mkField (.str "") (.bool true) (.str "texte")), ("plain", .int 7)]
      [] "nope" rfl rfl).1 rfl
  · exact (mappingParentWriteBehaviour c3wTree (.str "x") "cat.f"
      [("f", mkField (.str "") (.bool true) (.str "texte")), ("plain", .int 7)]
      [("valeur", .str ""), ("requis", .bool true), ("type", .str "texte")]
      "f" rfl rfl).2.1 rfl rfl
  · exact (mappingParentWriteBehaviour c3wTree (.str "x") "cat.plain"
      [("f", mkField (.str "") (.bool true) (.str "texte")), ("plain", .int 7)]
      [] "plain" rfl rfl).2.2 (.int 7) rfl rfl

/-- Tree exhibiting the failure of C3 for `set_field_value`: the key `"b"` is
absent. -/
def c3Tree : Json := .obj [("a", .str "x")]

/-- C3 counterexample.  The claim demands a `KeyNotFound` error and no
implicit create for a write whose final key is absent from the mapping parent;
`JSONManager.set_field_value` (`ai_bail_agent/utils/json_manager.py`) instead
creates the key, persists, and reports success. -/
theorem setFieldValueCreatesMissingKey :
    lookupKey [("a", Json.str "x")] "b" = none ∧
    setFieldValue "2024-01-01T00:00:00" c3Tree "b" (.str "y") =
      (true, .obj [("a", .str "x"), ("b", .str "y")]) :=
  ⟨rfl, rfl⟩

/-- C4.  For `JsonManager.remove_list_item` on a path resolving to a list `l`:
when `l` has exactly one item, removing index `0` fails with the last-item
protection and the tree is untouched; any index outside `[0, len)` fails with
the index-out-of-range error and the tree is untouched; a valid index on a
list of at least two items removes exactly the addressed element — the erased
list is the elements before the index followed by those after it, so
subsequent indices shift down by one — and persists the result; and whenever
the returned message is not the success message, the persisted tree equals
the input tree. -/
theorem removeListItemBehaviour (data : Json) (path : String) (l : List Json)
    (index : Int) (hnav : navigateAll data (parsePath path) = .ok (.arr l)) :
    (l.length = 1 → removeListItem data path 0 =
      (errMsg "Cannot remove the last item from the list", data)) ∧
    ((index < 0 ∨ (l.length : Int) ≤ index) →
      removeListItem data path index =
        (errMsg ("Index " ++ toString index ++ " out of range (list has " ++
          toString l.length ++ " items)"), data)) ∧
    (0 ≤ index → index < (l.length : Int) → 2 ≤ l.length →
      removeListItem data path index =
        ("Done. Item at index " ++ toString index ++ " removed",
          modifyAt data (parsePath path) (.arr (l.eraseIdx index.toNat)))) ∧
    (∀ i : Nat, l.eraseIdx i = l.take i ++ l.drop (i + 1)) ∧
    ((removeListItem data path index).1 =
        "Done. Item at index " ++ toString index ++ " removed" ∨
      (removeListItem data path index).2 = data) := by
  refine ⟨?_, ?_, ?_, ?_, ?_⟩
  · intro hlen
    simp only [removeListItem, hnav]
    rw [if_neg (by omega), if_pos (by omega)]
  · intro hidx
    simp only [removeListItem, hnav]
    rw [if_pos (by omega)]
  · intro h0 h1 h2
    simp only [removeListItem, hnav]
    rw [if_neg (by omega), if_neg (by omega)]
  · intro i
    exact List.eraseIdx_eq_take_drop_succ l i
  · simp only [removeListItem, hnav]
    by_cases hb : index < 0 ∨ (l.length : Int) ≤ index
    · rw [if_pos hb]
      right
      rfl
    · rw [if_neg hb]
      by_cases hl : l.length ≤ 1
      · rw [if_pos hl]
        right
        rfl
      · rw [if_neg hl]
        left
        rfl

/-- Two-item list session used by the `removeListItemBehaviour` witness. -/
def c4Tree : Json :=
  .obj [("tenants", .obj [("liste", .arr [.int 1, .int 2])])]

/-- One-item list session used by the `removeListItemBehaviour` witness. -/
def c4TreeOne : Json :=
  .obj [("tenants", .obj [("liste", .arr [.int 1])])]

/-- Witness for `removeListItemBehaviour`: on a one-item list, removing index
0 hits the last-item protection; on a two-item list, index 5 is out of range
and index 0 removes the first element and persists. -/
theorem removeListItemBehaviourWitness :
    removeListItem c4TreeOne "tenants.liste" 0 =
      (errMsg "Cannot remove the last item from the list", c4TreeOne) ∧
    removeListItem c4Tree "tenants.liste" 5 =
      (errMsg ("Index " ++ toString (5 : Int) ++
        " out of range (list has " ++ toString 2 ++ " items)"), c4Tree) ∧
    removeListItem c4Tree "tenants.liste" 0 =
      ("Done. Item at index " ++ toString (0 : Int) ++ " removed",
        .obj [("tenants", .obj [("liste", .arr [.int 2])])]) := by
  refine ⟨?_, ?_, ?_⟩
  · exact (removeListItemBehaviour c4TreeOne "tenants.liste" [.int 1] 0
      rfl).1 rfl
  · exact (removeListItemBehaviour c4Tree "tenants.liste" [.int 1, .int 2] 5
      rfl).2.1 (by decide)
  · exact (removeListItemBehaviour c4Tree "tenants.liste" [.int 1, .int 2] 0
      rfl).2.2.1 (by decide) (by decide) (by decide)

/-- C5.  `JsonManager.add_list_item` without an explicit template: on an empty
list it fails with the no-template error and changes nothing; on a non-empty
list it appends `_create_empty_copy` of the first element and reports the new
index, which is the new length minus one, i.e. the old length.  The empty copy
of a Field object keeps every entry except `valeur`, which is reset to the
type-appropriate sentinel: `null` for the `booleen` and `nombre` types, the
empty string for every other (or absent) `type`. -/
theorem addListItemEmptyCopy (data : Json) (path : String) (x : Json)
    (r : List Json) (kvs : List (String × Json)) (hfield : isField kvs = true) :
    (navigateAll data (parsePath path) = .ok (.arr []) →
      addListItem data path none =
        (errMsg "Cannot add item - list is empty and no template provided",
          data)) ∧
    (navigateAll data (parsePath path) = .ok (.arr (x :: r)) →
      addListItem data path none =
        ("Done. New item added at index " ++
            toString (((x :: r) ++ [createEmptyCopy x]).length - 1),
          modifyAt data (parsePath path)
            (.arr ((x :: r) ++ [createEmptyCopy x])))) ∧
    (((x :: r) ++ [createEmptyCopy x]).length - 1 = (x :: r).length) ∧
    (createEmptyCopy (.obj kvs) =
      .obj (dictSet kvs "valeur" (emptySentinel (lookupKey kvs "type")))) ∧
    (lookupKey (dictSet kvs "valeur" (emptySentinel (lookupKey kvs "type")))
        "valeur" = some (emptySentinel (lookupKey kvs "type"))) ∧
    (∀ k, k ≠ "valeur" →
      lookupKey (dictSet kvs "valeur" (emptySentinel (lookupKey kvs "type"))) k =
        lookupKey kvs k) ∧
    emptySentinel (some (.str "booleen")) = .null ∧
    emptySentinel (some (.str "nombre")) = .null ∧
    emptySentinel none = .str "" ∧
    (∀ t : String, t ≠ "booleen" → t ≠ "nombre" →
      emptySentinel (some (.str t)) = .str "") := by
  refine ⟨?_, ?_, ?_, ?_, ?_, ?_, rfl, rfl, rfl, ?_⟩
  · intro h
    simp only [addListItem, h]
  · intro h
    simp only [addListItem, h]
  · simp
  · simp only [createEmptyCopy, hfield, if_true]
  · exact lookupKey_dictSet_same kvs "valeur" _
  · intro k hk
    exact lookupKey_dictSet_other kvs "valeur" k _ hk
  · intro t h1 h2
    simp [emptySentinel, h1, h2]

/-- Session with a one-item tenant list used by the `addListItemEmptyCopy`
witness. -/
def c5Tree : Json :=
  .obj [("g", .obj [("liste", .arr [.obj [
    ("n", mkField (.str "Bob") (.bool true) (.str "texte")),
    ("age", mkField (.int 40) (.bool false) (.str "nombre"))]])])]

/-- Session with an empty list used by the `addListItemEmptyCopy` witness. -/
def c5TreeEmpty : Json := .obj [("g", .obj [("liste", .arr [])])]

/-- Witness for `addListItemEmptyCopy`: appending to the one-item list yields
index 1 and an item whose Fields keep `requis`/`type` but have their values
reset (`""` for text, `null` for number); the empty list fails. -/
theorem addListItemEmptyCopyWitness :
    addListItem c5Tree "g.liste" none =
      ("Done. New item added at index " ++ toString 1,
        .obj [("g", .obj [("liste", .arr [
          .obj [("n", mkField (.str "Bob") (.bool true) (.str "texte")),
            ("age", mkField (.int 40) (.bool false) (.str "nombre"))],
          .obj [("n", mkField (.str "") (.bool true) (.str "texte")),
            ("age", mkField .null (.bool false) (.str "nombre"))]])])]) ∧
    addListItem c5TreeEmpty "g.liste" none =
      (errMsg "Cannot add item - list is empty and no template provided",
        c5TreeEmpty) := by
  constructor
  · exact (addListItemEmptyCopy c5Tree "g.liste"
      (.obj [("n", mkField (.str "Bob") (.bool true) (.str "texte")),
        ("age", mkField (.int 40) (.bool false) (.str "nombre"))]) []
      [("valeur", .str "Bob"), ("requis", .bool true), ("type", .str "texte")]
      rfl).2.1 rfl
  · exact (addListItemEmptyCopy c5TreeEmpty "g.liste" .null []
      [("valeur", .str "Bob"), ("requis", .bool true), ("type", .str "texte")]
      rfl).1 rfl

/-- Every error string returned directly by the final-update step carries the
`Error: ` rendering. -/
theorem finalUpdate_errRet_form (parent : Json) (fin : Step) (value : Json) :
    ∀ m, finalUpdate parent fin value = .errRet m → ∃ r, m = errMsg r := by
  intro m h
  cases parent <;> cases fin <;> simp only [finalUpdate] at h <;>
    (repeat' split at h) <;>
    (cases h <;> exact ⟨_, rfl⟩)

/-- Outcome analysis of `update_value`: the message is `"Done"` or an
`Error: `-rendered string, and any non-`"Done"` outcome leaves the persisted
tree equal to the input tree (the save step is unreachable there). -/
theorem updateValue_cases (data : Json) (path : String) (value : Json) :
    ((updateValue data path value).1 = "Done" ∨
      ∃ r, (updateValue data path value).1 = errMsg r) ∧
    ((updateValue data path value).1 ≠ "Done" →
      (updateValue data path value).2 = data) := by
  cases hnav : navParentExc data (parsePath path).dropLast with
  | error e =>
      have he : updateValue data path value = (renderPyErr e, data) := by
        simp only [updateValue, hnav]
      rw [he]
      refine ⟨.inr ?_, fun _ => rfl⟩
      cases e <;> exact ⟨_, rfl⟩
  | ok parent =>
      cases hfin : finalUpdate parent ((parsePath path).getLastD (.key "")) value with
      | errRet m =>
          have he : updateValue data path value = (m, data) := by
            simp only [updateValue, hnav, hfin]
          rw [he]
          obtain ⟨r, hr⟩ := finalUpdate_errRet_form _ _ _ m hfin
          exact ⟨.inr ⟨r, hr⟩, fun _ => rfl⟩
      | raised e =>
          have he : updateValue data path value = (renderPyErr e, data) := by
            simp only [updateValue, hnav, hfin]
          rw [he]
          refine ⟨.inr ?_, fun _ => rfl⟩
          cases e <;> exact ⟨_, rfl⟩
      | ok newParent =>
          have he : updateValue data path value =
              ("Done", modifyAt data (parsePath path).dropLast newParent) := by
            simp only [updateValue, hnav, hfin]
          rw [he]
          exact ⟨.inl rfl, fun hne => absurd rfl hne⟩

/-- An `Error: `-rendered message is never the success message. -/
theorem errMsg_ne_done (r : String) : errMsg r ≠ "Done" := by
  intro h
  have h2 := congrArg String.data h
  simp [errMsg] at h2

/-- C7.  Every call to `update_value` either returns `"Done"` or an
`Error: `-rendered string; the two never coincide; and whenever the result is
not `"Done"` the persisted session tree is exactly the input tree. -/
theorem updateFailureLeavesSessionUnchanged (data : Json) (path : String)
    (value : Json) :
    ((updateValue data path value).1 = "Done" ∨
      ∃ r, (updateValue data path value).1 = errMsg r) ∧
    (∀ r, errMsg r ≠ "Done") ∧
    ((updateValue data path value).1 ≠ "Done" →
      (updateValue data path value).2 = data) :=
  ⟨(updateValue_cases data path value).1, errMsg_ne_done,
    (updateValue_cases data path value).2⟩

/-- Witness for `updateFailureLeavesSessionUnchanged`: the write to
`no.such.path` of scenario 4 of the spec fails and leaves the tree intact. -/
theorem updateFailureLeavesSessionUnchangedWitness :
    (updateValue (.obj [("a", .int 1)]) "no.such.path" (.str "x")).2 =
      .obj [("a", .int 1)] :=
  (updateFailureLeavesSessionUnchanged (.obj [("a", .int 1)]) "no.such.path"
    (.str "x")).2.2 (by decide)

/-- The batch loop distributes over concatenation: the second half runs from
the state the first half left behind, and the result lines concatenate. -/
theorem setValueGo_append : ∀ (us vs : List Upd) (data : Json),
    setValueGo data (us ++ vs) =
      ((setValueGo data us).1 ++ (setValueGo (setValueGo data us).2 vs).1,
        (setValueGo (setValueGo data us).2 vs).2)
  | [], vs, data => by simp [setValueGo]
  | u :: us, vs, data => by
      simp only [List.cons_append, setValueGo, List.append_eq]
      rw [setValueGo_append us vs]

/-- The batch loop emits exactly one result line per update. -/
theorem setValueGo_length : ∀ (us : List Upd) (data : Json),
    (setValueGo data us).1.length = us.length
  | [], _ => rfl
  | u :: us, data => by
      simp only [setValueGo, List.length_cons]
      rw [setValueGo_length us]

/-- C8.  The batch of `set_value_impl` is processed strictly in input order:
running a batch `us ++ vs` runs `us` first and then `vs` from the resulting
tree with the result lines concatenated — so a failure inside `us` neither
stops `vs` from running nor rolls anything back; exactly one outcome line is
reported per update; and an update whose line is not its success line leaves
the tree unchanged at its position in the batch. -/
theorem setValueBatchSemantics (data : Json) (us vs : List Upd) (u : Upd)
    (p : String) :
    (setValueGo data (us ++ vs)).1 =
      (setValueGo data us).1 ++ (setValueGo (setValueGo data us).2 vs).1 ∧
    (setValueGo data (us ++ vs)).2 = (setValueGo (setValueGo data us).2 vs).2 ∧
    (setValueGo data us).1.length = us.length ∧
    (u.path = some p →
      (svStep data u).1 ≠ "Update " ++ apos ++ p ++ apos ++ ": Done" →
      (svStep data u).2 = data) := by
  refine ⟨?_, ?_, setValueGo_length us data, ?_⟩
  · rw [setValueGo_append us vs data]
  · rw [setValueGo_append us vs data]
  · intro hp hne
    by_cases hinv : invalidUpd u = true
    · simp only [svStep, hinv, if_true]
    · simp only [svStep, hinv, Bool.false_eq_true, if_false, hp]
      apply (updateValue_cases data p (coerceVal u.value)).2
      intro hdone
      apply hne
      simp only [svStep, hinv, Bool.false_eq_true, if_false, hp, hdone]
      rw [String.append_assoc]
      rfl

/-- One-field session used by the batch witnesses. -/
def c8Tree : Json :=
  .obj [("cat", .obj [("g", mkField (.str "") (.bool true) (.str "texte"))])]

/-- Witness for `setValueBatchSemantics`: a successful write followed by a
failing one — the batch decomposes through the intermediate tree, and the
failing step leaves the tree it received unchanged. -/
theorem setValueBatchSemanticsWitness :
    (setValueGo c8Tree ([⟨some "cat.g", .str "800"⟩] ++
        [⟨some "cat.missing", .str "w"⟩])).1 =
      (setValueGo c8Tree [⟨some "cat.g", .str "800"⟩]).1 ++
        (setValueGo (setValueGo c8Tree [⟨some "cat.g", .str "800"⟩]).2
          [⟨some "cat.missing", .str "w"⟩]).1 ∧
    (svStep c8Tree ⟨some "cat.missing", .str "w"⟩).2 = c8Tree := by
  constructor
  · exact (setValueBatchSemantics c8Tree [⟨some "cat.g", .str "800"⟩]
      [⟨some "cat.missing", .str "w"⟩] ⟨some "cat.missing", .str "w"⟩
      "cat.missing").1
  · exact (setValueBatchSemantics c8Tree [⟨some "cat.g", .str "800"⟩]
      [⟨some "cat.missing", .str "w"⟩] ⟨some "cat.missing", .str "w"⟩
      "cat.missing").2.2.2 rfl (by decide)

/-- The coercion never produces `None`. -/
theorem parseValue_ne_null (s : String) : parseValue s ≠ .null := by
  unfold parseValue
  (repeat' split) <;> (intro h; exact Json.noConfusion h)

/-- C9.  The coercion of `set_value_impl` is a pure function of the input
string alone: case-insensitive `"true"`/`"false"` become booleans; a dot-free
string accepted by `int()` becomes that integer; a dotted string accepted by
`float()` becomes a float; anything else stays the given string.  It never
consults the session: writing any value into a Field stores it verbatim
whatever the Field's declared `type` entry is. -/
theorem coercionPureAndTypeBlind :
    (∀ s : String, pyLower s = "true" → parseValue s = .bool true) ∧
    (∀ s : String, pyLower s = "false" → parseValue s = .bool false) ∧
    (∀ (s : String) (n : Int), pyLower s ≠ "true" → pyLower s ≠ "false" →
      s.data.contains '.' = false → pyIntOfString s = some n →
      parseValue s = .int n) ∧
    (∀ s : String, pyLower s ≠ "true" → pyLower s ≠ "false" →
      s.data.contains '.' = true → pyFloatParses s = true →
      parseValue s = .float s) ∧
    (∀ s : String, pyLower s ≠ "true" → pyLower s ≠ "false" →
      (s.data.contains '.' = true → pyFloatParses s = false) →
      (s.data.contains '.' = false → pyIntOfString s = none) →
      parseValue s = .str s) ∧
    (∀ ty v : Json,
      updateValue (.obj [("cat", .obj [("f", mkField .null (.bool true) ty)])])
          "cat.f" v =
        ("Done", .obj [("cat", .obj [("f", mkField v (.bool true) ty)])])) := by
  refine ⟨?_, ?_, ?_, ?_, ?_, ?_⟩
  · intro s h
    unfold parseValue
    rw [if_pos h]
  · intro s h
    unfold parseValue
    rw [if_neg (by rw [h]; decide), if_pos h]
  · intro s n h1 h2 h3 h4
    unfold parseValue
    rw [if_neg h1, if_neg h2, if_neg (by rw [h3]; decide), h4]
  · intro s h1 h2 h3 h4
    unfold parseValue
    rw [if_neg h1, if_neg h2, if_pos h3, if_pos h4]
  · intro s h1 h2 h3 h4
    unfold parseValue
    rw [if_neg h1, if_neg h2]
    by_cases hdot : s.data.contains '.' = true
    · rw [if_pos hdot, if_neg (by rw [h3 hdot]; decide)]
    · have hdot2 : s.data.contains '.' = false := by
        revert hdot
        cases s.data.contains '.' <;> simp
      rw [if_neg (by rw [hdot2]; decide), h4 hdot2]
  · intro ty v
    rfl

/-- Witness for `coercionPureAndTypeBlind`: the five coercion branches at
concrete strings, and the same string stored verbatim into a text-typed and a
number-typed Field alike. -/
theorem coercionPureAndTypeBlindWitness :
    parseValue "TRUE" = .bool true ∧
    parseValue "False" = .bool false ∧
    parseValue "800" = .int 800 ∧
    parseValue "8.5" = .float "8.5" ∧
    parseValue "8.5.2" = .str "8.5.2" ∧
    parseValue "1e5" = .str "1e5" ∧
    updateValue (.obj [("cat", .obj [("f", mkField .null (.bool true)
        (.str "texte"))])]) "cat.f" (.int 800) =
      ("Done", .obj [("cat", .obj [("f", mkField (.int 800) (.bool true)
        (.str "texte"))])]) ∧
    updateValue (.obj [("cat", .obj [("f", mkField .null (.bool true)
        (.str "nombre"))])]) "cat.f" (.int 800) =
      ("Done", .obj [("cat", .obj [("f", mkField (.int 800) (.bool true)
        (.str "nombre"))])]) := by
  refine ⟨?_, ?_, ?_, ?_, ?_, ?_, ?_, ?_⟩
  · exact coercionPureAndTypeBlind.1 "TRUE" (by decide)
  · exact coercionPureAndTypeBlind.2.1 "False" (by decide)
  · exact coercionPureAndTypeBlind.2.2.1 "800" 800 (by decide) (by decide)
      (by decide) (by decide)
  · exact coercionPureAndTypeBlind.2.2.2.1 "8.5" (by decide) (by decide)
      (by decide) (by decide)
  · exact coercionPureAndTypeBlind.2.2.2.2.1 "8.5.2" (by decide) (by decide)
      (fun _ => by decide) (by decide)
  · exact coercionPureAndTypeBlind.2.2.2.2.1 "1e5" (by decide) (by decide)
      (by decide) (fun _ => by decide)
  · exact coercionPureAndTypeBlind.2.2.2.2.2 (.str "texte") (.int 800)
  · exact coercionPureAndTypeBlind.2.2.2.2.2 (.str "nombre") (.int 800)

/-- C10.  An update entry whose value is `None` (or absent) or whose path is
absent or empty is reported as an `Invalid update format` error by the batch
handler, which then skips the engine entirely for that entry, leaving the tree
as it was; a valid entry is handed to `update_value` with the coerced value,
which is never `None` — so no field can be set to `None` through the
`set_value` interface. -/
theorem invalidUpdateNeverReachesEngine (data : Json) (u : Upd) (s : String) :
    (invalidUpd u = true →
      svStep data u = ("Error: Invalid update format for " ++ reprUpd u, data)) ∧
    (u.value = .null → invalidUpd u = true) ∧
    (u.path = none ∨ u.path = some "" → invalidUpd u = true) ∧
    parseValue s ≠ .null ∧
    (invalidUpd u = false → coerceVal u.value ≠ .null) ∧
    (invalidUpd u = false → ∀ p, u.path = some p →
      svStep data u =
        ("Update " ++ apos ++ p ++ apos ++ ": " ++
            (updateValue data p (coerceVal u.value)).1,
          (updateValue data p (coerceVal u.value)).2)) := by
  refine ⟨?_, ?_, ?_, parseValue_ne_null s, ?_, ?_⟩
  · intro h
    simp only [svStep, h, if_true]
  · intro h
    unfold invalidUpd
    rw [h]
    cases u.path <;> simp
  · intro h
    unfold invalidUpd
    rcases h with h | h <;> rw [h] <;> simp
  · intro h
    cases hv : u.value <;> simp only [coerceVal]
    case str s' => exact parseValue_ne_null s'
    case null =>
        unfold invalidUpd at h
        rw [hv] at h
        simp at h
    all_goals (intro hc; exact Json.noConfusion hc)
  · intro h p hp
    simp only [svStep, h, Bool.false_eq_true, if_false, hp]

/-- Witness for `invalidUpdateNeverReachesEngine`: a null value and a missing
path are both rejected with the invalid-format error and leave the tree
untouched; a valid entry reaches the engine with its coerced value. -/
theorem invalidUpdateNeverReachesEngineWitness :
    svStep c8Tree ⟨some "cat.g", .null⟩ =
      ("Error: Invalid update format for " ++ reprUpd ⟨some "cat.g", .null⟩,
        c8Tree) ∧
    svStep c8Tree ⟨none, .str "x"⟩ =
      ("Error: Invalid update format for " ++ reprUpd ⟨none, .str "x"⟩,
        c8Tree) ∧
    svStep c8Tree ⟨some "cat.g", .str "800"⟩ =
      ("Update " ++ apos ++ "cat.g" ++ apos ++ ": " ++
          (updateValue c8Tree "cat.g" (coerceVal (.str "800"))).1,
        (updateValue c8Tree "cat.g" (coerceVal (.str "800"))).2) := by
  refine ⟨?_, ?_, ?_⟩
  · exact (invalidUpdateNeverReachesEngine c8Tree ⟨some "cat.g", .null⟩ "").1
      rfl
  · exact (invalidUpdateNeverReachesEngine c8Tree ⟨none, .str "x"⟩ "").1 rfl
  · exact (invalidUpdateNeverReachesEngine c8Tree ⟨some "cat.g", .str "800"⟩
      "").2.2.2.2.2 rfl "cat.g" rfl

/-- One surface segment of a path after the leading key: either a key or a
list index given by its literal decimal digits. -/
inductive Seg where
  | key (s : String)
  | idx (ds : List Char)
deriving DecidableEq

/-- The characters a segment contributes between the separators. -/
def segChars : Seg → List Char
  | .key s => s.data
  | .idx ds => ds

/-- Rendering of one segment in the two surface syntaxes: keys always follow a
dot; an index is `[ds]` in bracket syntax and `.ds` in dotted syntax. -/
def renderDelta (bracket : Bool) : Seg → List Char
  | .key s => '.' :: s.data
  | .idx ds => if bracket then '[' :: ds ++ [']'] else '.' :: ds

/-- Rendering of a segment list in the chosen surface syntax. -/
def renderSegs (bracket : Bool) : List Seg → List Char
  | [] => []
  | sg :: r => renderDelta bracket sg ++ renderSegs bracket r

/-- A well-formed key: contains neither a dot nor an opening bracket and is
not itself a pure digit run. -/
def goodKeyChars (cs : List Char) : Bool :=
  cs.all (fun c => c ≠ '.' && c ≠ '[') && !segIsDigit cs

/-- Well-formedness of a segment: keys as in `goodKeyChars`; indices are
non-empty digit runs. -/
def goodSeg : Seg → Bool
  | .key s => goodKeyChars s.data
  | .idx ds => segIsDigit ds

/-- The step a surface segment denotes. -/
def segStep : Seg → Step
  | .key s => .key s
  | .idx ds => .idx (digitsToNat ds)

/-- The scanner passes over bracket-free characters unchanged. -/
theorem normAux_append (xs : List Char) (ys : List Char)
    (h : ∀ c ∈ xs, c ≠ '[') :
    normAux none (xs ++ ys) = xs ++ normAux none ys := by
  induction xs with
  | nil => rfl
  | cons c cs ih =>
      simp only [List.cons_append, normAux, List.append_eq]
      rw [if_neg (h c (List.mem_cons_self c cs))]
      rw [ih (fun d hd => h d (List.mem_cons_of_mem c hd))]

/-- A bracket-free character list is a fixed point of the scanner. -/
theorem normAux_fixed (xs : List Char) (h : ∀ c ∈ xs, c ≠ '[') :
    normAux none xs = xs := by
  have h2 := normAux_append xs [] h
  simpa [normAux] using h2

/-- Inside a pending bracket, a digit run followed by the closing bracket is
rewritten to a dot followed by all accumulated digits. -/
theorem normAux_digits (ds : List Char) : ∀ (acc rest : List Char),
    (∀ c ∈ ds, c.isDigit = true) → acc.reverse ++ ds ≠ [] →
    normAux (some acc) (ds ++ ']' :: rest) =
      '.' :: (acc.reverse ++ ds) ++ normAux none rest := by
  induction ds with
  | nil =>
      intro acc rest _ hne
      have hacc : acc ≠ [] := by simpa using hne
      have hemp : acc.isEmpty = false := by
        cases acc with
        | nil => exact absurd rfl hacc
        | cons a as => rfl
      simp only [List.nil_append, normAux]
      rw [if_neg (by decide), if_pos (by simp [hemp])]
      simp
  | cons d ds' ih =>
      intro acc rest hd hne
      simp only [List.cons_append, normAux, List.append_eq]
      rw [if_pos (hd d (List.mem_cons_self d ds'))]
      rw [ih (d :: acc) rest (fun c hc => hd c (List.mem_cons_of_mem d hc))
        (by simp)]
      simp

/-- A full bracketed digit run is rewritten to its dotted form, and scanning
resumes right after it. -/
theorem normAux_bracket (ds rest : List Char) (hne : ds ≠ [])
    (hd : ∀ c ∈ ds, c.isDigit = true) :
    normAux none ('[' :: (ds ++ ']' :: rest)) = '.' :: ds ++ normAux none rest := by
  have h0 : normAux none ('[' :: (ds ++ ']' :: rest)) =
      normAux (some []) (ds ++ ']' :: rest) := by
    simp only [normAux]
    rw [if_pos trivial]
  rw [h0, normAux_digits ds [] rest hd (by simpa using hne)]
  simp

/-- The dotted rendering of well-formed segments contains no opening
bracket. -/
theorem renderSegsDotted_noBrack : ∀ segs : List Seg,
    segs.all goodSeg = true → ∀ c ∈ renderSegs false segs, c ≠ '['
  | [], _, c, hc => by simp [renderSegs] at hc
  | sg :: r, h, c, hc => by
      simp only [List.all_cons, Bool.and_eq_true] at h
      simp only [renderSegs, List.mem_append] at hc
      rcases hc with hc | hc
      · cases sg with
        | key s =>
            simp only [renderDelta, List.mem_cons] at hc
            rcases hc with hc | hc
            · subst hc
              decide
            · have hk := h.1
              simp only [goodSeg, goodKeyChars, Bool.and_eq_true,
                List.all_eq_true] at hk
              have h3 := hk.1 c hc
              simp only [Bool.and_eq_true, decide_eq_true_eq] at h3
              exact h3.2
        | idx ds =>
            simp only [renderDelta, Bool.false_eq_true, if_false] at hc
            have hk := h.1
            simp only [goodSeg, segIsDigit, Bool.and_eq_true,
              List.all_eq_true] at hk
            simp only [List.mem_cons] at hc
            rcases hc with hc | hc
            · subst hc
              decide
            · have := hk.2 c hc
              intro hcon
              subst hcon
              simp at this
      · exact renderSegsDotted_noBrack r h.2 c hc

/-- Normalizing the bracketed rendering of well-formed segments yields their
dotted rendering. -/
theorem normRenderSegs : ∀ segs : List Seg, segs.all goodSeg = true →
    normAux none (renderSegs true segs) = renderSegs false segs
  | [], _ => rfl
  | sg :: r, h => by
      have h1 : goodSeg sg = true := by
        simp only [List.all_cons, Bool.and_eq_true] at h
        exact h.1
      have h2 : r.all goodSeg = true := by
        simp only [List.all_cons, Bool.and_eq_true] at h
        exact h.2
      cases sg with
      | key s =>
          simp only [renderSegs, renderDelta, List.cons_append]
          have hnb : ∀ c ∈ s.data, c ≠ '[' := by
            intro c hc
            simp only [goodSeg, goodKeyChars, Bool.and_eq_true,
              List.all_eq_true] at h1
            have h3 := h1.1 c hc
            simp only [Bool.and_eq_true, decide_eq_true_eq] at h3
            exact h3.2
          have step : normAux none ('.' :: (s.data ++ renderSegs true r)) =
              '.' :: (s.data ++ normAux none (renderSegs true r)) := by
            have := normAux_append ('.' :: s.data) (renderSegs true r)
              (by
                intro c hc
                rcases List.mem_cons.mp hc with hc | hc
                · subst hc; decide
                · exact hnb c hc)
            simpa using this
          rw [step, normRenderSegs r h2]
      | idx ds =>
          have hds : segIsDigit ds = true := h1
          have hne : ds ≠ [] := by
            simp only [segIsDigit, Bool.and_eq_true] at hds
            have := hds.1
            cases ds with
            | nil => simp at this
            | cons a as => exact List.cons_ne_nil a as
          have hdig : ∀ c ∈ ds, c.isDigit = true := by
            simp only [segIsDigit, Bool.and_eq_true, List.all_eq_true] at hds
            exact hds.2
          simp only [renderSegs, renderDelta, if_true, Bool.false_eq_true,
            if_false, List.cons_append, List.append_assoc,
            List.singleton_append, List.nil_append]
          rw [normAux_bracket ds (renderSegs true r) hne hdig,
            normRenderSegs r h2]
          simp

/-- Splitting never yields an empty segment list (Python `split` always
returns at least one piece). -/
theorem splitOnDot_ne_nil : ∀ cs : List Char, splitOnDot cs ≠ []
  | [] => by simp [splitOnDot]
  | c :: cs => by
      simp only [splitOnDot]
      by_cases h : c = '.'
      · simp [h]
      · rw [if_neg h]
        cases hs : splitOnDot cs with
        | nil => exact List.cons_ne_nil _ _
        | cons s ss => exact List.cons_ne_nil _ _

/-- A dot-free character list splits to the single segment it is. -/
theorem splitOnDot_noDot : ∀ cs : List Char, (∀ c ∈ cs, c ≠ '.') →
    splitOnDot cs = [cs]
  | [], _ => rfl
  | c :: cs, h => by
      simp only [splitOnDot]
      rw [if_neg (h c (List.mem_cons_self c cs)),
        splitOnDot_noDot cs (fun d hd => h d (List.mem_cons_of_mem c hd))]

/-- Splitting a dot-free segment followed by a dot peels off that segment. -/
theorem splitOnDot_append : ∀ (seg rest : List Char), (∀ c ∈ seg, c ≠ '.') →
    splitOnDot (seg ++ '.' :: rest) = seg :: splitOnDot rest
  | [], rest, _ => by simp [splitOnDot]
  | c :: seg, rest, h => by
      simp only [List.cons_append, splitOnDot, List.append_eq]
      rw [if_neg (h c (List.mem_cons_self c seg)),
        splitOnDot_append seg rest (fun d hd => h d (List.mem_cons_of_mem c hd))]

/-- Splitting the dotted rendering after a dot-free first segment yields the
first segment followed by each rendered segment's characters. -/
theorem splitRenderDotted : ∀ (segs : List Seg) (first : List Char),
    (∀ c ∈ first, c ≠ '.') → segs.all goodSeg = true →
    splitOnDot (first ++ renderSegs false segs) = first :: segs.map segChars
  | [], first, hf, _ => by
      simp only [renderSegs, List.append_nil, List.map_nil]
      exact splitOnDot_noDot first hf
  | sg :: r, first, hf, h => by
      have h1 : goodSeg sg = true := by
        simp only [List.all_cons, Bool.and_eq_true] at h
        exact h.1
      have h2 : r.all goodSeg = true := by
        simp only [List.all_cons, Bool.and_eq_true] at h
        exact h.2
      have hnd : ∀ c ∈ segChars sg, c ≠ '.' := by
        intro c hc
        cases sg with
        | key s =>
            simp only [goodSeg, goodKeyChars, Bool.and_eq_true,
              List.all_eq_true] at h1
            have h3 := h1.1 c hc
            simp only [Bool.and_eq_true, decide_eq_true_eq] at h3
            exact h3.1
        | idx ds =>
            simp only [goodSeg, segIsDigit, Bool.and_eq_true,
              List.all_eq_true] at h1
            have h3 := h1.2 c hc
            intro hcon
            subst hcon
            simp at h3
      have hshape : first ++ renderSegs false (sg :: r) =
          first ++ '.' :: (segChars sg ++ renderSegs false r) := by
        cases sg <;>
          simp [renderSegs, renderDelta, segChars, Bool.false_eq_true]
      rw [hshape, splitOnDot_append first _ hf,
        splitRenderDotted r (segChars sg) hnd h2]
      simp

/-- Path congruence of the write operation: `update_value` consults the path
string only through `_parse_path`. -/
theorem updateValue_path_congr (data value : Json) (p1 p2 : String)
    (h : parsePath p1 = parsePath p2) :
    updateValue data p1 value = updateValue data p2 value := by
  unfold updateValue
  rw [h]

/-- A well-formed segment's characters parse back to the step it denotes. -/
theorem segToStep_segChars (sg : Seg) (h : goodSeg sg = true) :
    segToStep (segChars sg) = segStep sg := by
  cases sg with
  | key s =>
      simp only [goodSeg, goodKeyChars, Bool.and_eq_true] at h
      have hnd : segIsDigit s.data = false := by
        rcases h with ⟨_, h2⟩
        revert h2
        cases segIsDigit s.data <;> simp
      simp only [segChars, segToStep, segStep, hnd, Bool.false_eq_true,
        if_false]
  | idx ds =>
      simp only [goodSeg] at h
      simp [segChars, segToStep, segStep, h]

/-- C6.  Dotted-integer and bracketed list indices are interchangeable: for a
well-formed leading key and segment list, the resolver (which rewrites every
`[digits]` occurrence to `.digits` before splitting on dots) parses the
bracketed and the dotted spelling of the same path to the same step list, in
which every all-digit segment has become an integer step; consequently a
write through `update_value` yields identical results — message and persisted
tree — for both spellings. -/
theorem bracketDotEquivalence (head : String) (segs : List Seg)
    (data value : Json) (hh : goodKeyChars head.data = true)
    (hs : segs.all goodSeg = true) :
    parsePath (String.mk (head.data ++ renderSegs true segs)) =
      parsePath (String.mk (head.data ++ renderSegs false segs)) ∧
    parsePath (String.mk (head.data ++ renderSegs false segs)) =
      Step.key head :: segs.map segStep ∧
    updateValue data (String.mk (head.data ++ renderSegs true segs)) value =
      updateValue data (String.mk (head.data ++ renderSegs false segs))
        value := by
  have hhsplit : (∀ c ∈ head.data, c ≠ '.') ∧ (∀ c ∈ head.data, c ≠ '[') := by
    simp only [goodKeyChars, Bool.and_eq_true, List.all_eq_true] at hh
    constructor
    · intro c hc
      have h3 := hh.1 c hc
      simp only [Bool.and_eq_true, decide_eq_true_eq] at h3
      exact h3.1
    · intro c hc
      have h3 := hh.1 c hc
      simp only [Bool.and_eq_true, decide_eq_true_eq] at h3
      exact h3.2
  have hnormB : normBrack (head.data ++ renderSegs true segs) =
      head.data ++ renderSegs false segs := by
    unfold normBrack
    rw [normAux_append head.data _ hhsplit.2, normRenderSegs segs hs]
  have hnormD : normBrack (head.data ++ renderSegs false segs) =
      head.data ++ renderSegs false segs := by
    unfold normBrack
    apply normAux_fixed
    intro c hc
    rcases List.mem_append.mp hc with hc | hc
    · exact hhsplit.2 c hc
    · exact renderSegsDotted_noBrack segs hs c hc
  have hparse1 : parsePath (String.mk (head.data ++ renderSegs true segs)) =
      parsePath (String.mk (head.data ++ renderSegs false segs)) := by
    show (splitOnDot (normBrack (head.data ++ renderSegs true segs))).map
        segToStep =
      (splitOnDot (normBrack (head.data ++ renderSegs false segs))).map
        segToStep
    rw [hnormB, hnormD]
  have hdigit : segIsDigit head.data = false := by
    simp only [goodKeyChars, Bool.and_eq_true] at hh
    rcases hh with ⟨_, h2⟩
    revert h2
    cases segIsDigit head.data <;> simp
  have hparse2 : parsePath (String.mk (head.data ++ renderSegs false segs)) =
      Step.key head :: segs.map segStep := by
    show (splitOnDot (normBrack (head.data ++ renderSegs false segs))).map
        segToStep = Step.key head :: segs.map segStep
    rw [hnormD, splitRenderDotted segs head.data hhsplit.1 hs]
    simp only [List.map_cons, List.map_map]
    have hhead : segToStep head.data = Step.key head := by
      simp only [segToStep, hdigit, Bool.false_eq_true, if_false]
    rw [hhead]
    have hmaps : List.map (segToStep ∘ segChars) segs = List.map segStep segs := by
      apply List.map_congr_left
      intro sg hsg
      have hgood : goodSeg sg = true := by
        rw [List.all_eq_true] at hs
        exact hs sg hsg
      exact segToStep_segChars sg hgood
    rw [hmaps]
  exact ⟨hparse1, hparse2, updateValue_path_congr data value _ _ hparse1⟩

/-- Session with a one-item tenant list used by the `bracketDotEquivalence`
witness. -/
def c6Tree : Json :=
  .obj [("tenants", .obj [("liste", .arr [.obj [
    ("email", mkField (.str "") (.bool true) (.str "email"))]])])]

/-- Witness for `bracketDotEquivalence`: scenario 6 of the spec —
`tenants.liste[0].email` and `tenants.liste.0.email` parse alike and the
writes produce identical results. -/
theorem bracketDotEquivalenceWitness :
    parsePath "tenants.liste[0].email" = parsePath "tenants.liste.0.email" ∧
    parsePath "tenants.liste.0.email" =
      [Step.key "tenants", Step.key "liste", Step.idx 0, Step.key "email"] ∧
    updateValue c6Tree "tenants.liste[0].email" (.str "a@b.com") =
      updateValue c6Tree "tenants.liste.0.email" (.str "a@b.com") := by
  have h := bracketDotEquivalence "tenants"
    [.key "liste", .idx ['0'], .key "email"] c6Tree (.str "a@b.com")
    (by decide) (by decide)
  exact ⟨h.1, h.2.1, h.2.2⟩
